import Mathlib

/-!
Verification of the spotifyaio client (joostlek/python-spotify) against its
natural-language specification.  The Python source is shallowly embedded:
pure helpers become Lean functions, the stateful request dispatch becomes an
explicit state-passing step, JSON payloads become an inductive value type,
and fallible code returns `Option` or `Except`.
-/

set_option autoImplicit false

namespace Spotify

/-! ### Identifier extraction (src/spotifyaio/util.py)

Python strings are embedded as `List Char`.  `pySplit` is Python
`str.split(sep)` for a one-character separator: every occurrence splits,
empty chunks are kept, and the result is never empty. -/

def pySplit (sep : Char) : List Char → List (List Char)
  | [] => [[]]
  | c :: cs =>
    match pySplit sep cs with
    | [] => [[]]
    | s :: ss => if c = sep then [] :: s :: ss else (c :: s) :: ss

/-- `get_identifier` from util.py: `identifier.split(":")[-1]`.
Python `[-1]` on the never-empty split result is the last element. -/
def get_identifier (identifier : List Char) : List Char :=
  (pySplit ':' identifier).getLastD []

/-! ### Transport and request dispatch (SpotifyClient._request)

The HTTP collaborator is abstracted as a completed transport outcome:
either a response (status, content type, body text) or one of the two
transport-level failures distinguished by the caller of `session.request`
(timeout expiry, or any other client error raised by the HTTP library). -/

inductive TransportResult where
  | response (status : Nat) (content_type : String) (body : String)
  | timeout
  | clientError
  deriving DecidableEq

/-- The exception kinds that can escape `_request` and the batch guards. -/
inductive PyExc where
  | spotifyConnectionError (msg : String)
  | spotifyNotFoundError (msg : String)
  | clientError
  | valueError (msg : String)
  deriving DecidableEq

def isConnectionError : PyExc → Bool
  | .spotifyConnectionError _ => true
  | _ => false

/-- Whether `pat` occurs as a contiguous sublist of the second argument. -/
def containsSub (pat : List Char) : List Char → Bool
  | [] => pat.isEmpty
  | c :: cs => pat.isPrefixOf (c :: cs) || containsSub pat cs

/-- Python substring containment, `pat in s`. -/
def strContains (s pat : String) : Bool :=
  containsSub pat.toList s.toList

/-- The embedded upstream 404 marker checked by `_request`. -/
def notFoundMarker : String := "\"status\": 404"

/-- The response-handling tail of `SpotifyClient._request`
(spotify.py lines 132-154): timeout is wrapped into
`SpotifyConnectionError`; any other exception from the HTTP client
propagates unwrapped; status 204 short-circuits to the empty body; a body
containing the embedded 404 marker raises `SpotifyNotFoundError` with the
requested path; otherwise the body text is returned.  The code performs no
content-type inspection. -/
def requestBody (uri : String) (t : TransportResult) : Except PyExc String :=
  match t with
  | .timeout =>
      .error (.spotifyConnectionError "Timeout occurred while connecting to Spotify")
  | .clientError => .error .clientError
  | .response status _content_type body =>
      if status = 204 then .ok ""
      else if strContains body notFoundMarker then
        .error (.spotifyNotFoundError ("Resource not found: " ++ uri))
      else .ok body

/-! ### Token refresh and headers (SpotifyClient.refresh_token, _request) -/

/-- The client state relevant to authentication: the cached `_token` and
the registered refresh callback, the callback modelled by the string it
returns when awaited (`None` when no callback is registered). -/
structure ClientState where
  token : Option String
  refresh_token_function : Option String
  deriving DecidableEq

/-- `SpotifyClient.refresh_token`: when a callback is registered its result
replaces `_token`; otherwise the state is untouched. -/
def refresh_token (c : ClientState) : ClientState :=
  match c.refresh_token_function with
  | some t => { c with token := some t }
  | none => c

/-- Python f-string interpolation of an `Optional[str]`: `None` prints as
the four-character string `None`. -/
def pyFStrOpt : Option String → String
  | some s => s
  | none => "None"

/-- Generic first-match association-list lookup (Python `dict` read). -/
def assocLookup {α β : Type} [DecidableEq α] : List (α × β) → α → Option β
  | [], _ => none
  | (k, v) :: rest, key => if k = key then some v else assocLookup rest key

/-- The header-building prefix of `_request` (spotify.py lines 120-126):
`refresh_token` runs first, then the fixed headers are built from the
post-refresh token.  Returns the headers and the updated client state. -/
def requestHeaders (version : String) (c : ClientState) :
    List (String × String) × ClientState :=
  let c2 := refresh_token c
  ([("User-Agent", "AioSpotify/" ++ version),
    ("Accept", "application/json, text/plain, */*"),
    ("Authorization", "Bearer " ++ pyFStrOpt c2.token)], c2)

/-- The outbound path built by `SpotifyClient.get_artist_top_tracks`
(spotify.py lines 288-292): the identifier is the last `:`-separated
segment of the argument, spliced into a fixed path template. -/
def get_artist_top_tracks_path (artist_id : List Char) : List Char :=
  "v1/artists/".toList ++ (pySplit ':' artist_id).getLastD [] ++ "/top-tracks".toList

/-! ### JSON values

Parsed JSON payloads (Python dict/list/str/int/bool/None trees) for the
pre-deserialize hooks of models.py.  Objects are association lists with
unique keys, as in a Python dict. -/

inductive Json where
  | null
  | bool (b : Bool)
  | num (n : Int)
  | str (s : String)
  | arr (xs : List Json)
  | obj (fields : List (String × Json))

/-- Dictionary read `d[key]` / `d.get(key)`: `none` when the key is absent
or the value is not an object. -/
def Json.get? : Json → String → Option Json
  | .obj fs, key => assocLookup fs key
  | _, _ => none

/-- Python `d.get(key, default)`. -/
def Json.getD (j : Json) (key : String) (dflt : Json) : Json :=
  (j.get? key).getD dflt

/-- Replace (or append) one key of an association list, keeping the
position of an existing key as a Python dict update does. -/
def setPairs : List (String × Json) → String → Json → List (String × Json)
  | [], k, v => [(k, v)]
  | (k0, v0) :: rest, k, v =>
      if k0 = k then (k, v) :: rest else (k0, v0) :: setPairs rest k v

/-- Python `{**d, key: v}` on an object; non-objects are untouched. -/
def Json.setKey (j : Json) (key : String) (v : Json) : Json :=
  match j with
  | .obj fs => .obj (setPairs fs key v)
  | _ => j

def Json.isNull : Json → Bool
  | .null => true
  | _ => false

/-- Python truthiness of a JSON value. -/
def pyTruthy : Json → Bool
  | .null => false
  | .bool b => b
  | .num n => n != 0
  | .str s => !s.isEmpty
  | .arr xs => !xs.isEmpty
  | .obj fs => !fs.isEmpty

/-! ### Pre-deserialize hooks (models.py)

Each hook is the `__pre_deserialize__` classmethod of the named model,
acting on the parsed payload before structural field mapping.  A hook
returns `none` where the Python code would raise (`KeyError` on a missing
key, attribute/type errors on a value of the wrong shape). -/

/-- Element filter of `PlaylistTracks.__pre_deserialize__`
(models.py lines 396-400): keep the items whose `is_local` value is not
truthy; an item without an `is_local` key raises. -/
def filterNotLocal : List Json → Option (List Json)
  | [] => some []
  | x :: xs =>
      match x.get? "is_local", filterNotLocal xs with
      | some v, some rest =>
          some (if pyTruthy v then rest else x :: rest)
      | _, _ => none

/-- `PlaylistTracks.__pre_deserialize__`: rebuilds the payload as the
single-key object holding the filtered item list. -/
def PlaylistTracks_pre (d : Json) : Option Json :=
  match d.get? "items" with
  | some (.arr xs) => (filterNotLocal xs).map fun ys => Json.obj [("items", .arr ys)]
  | _ => none

/-- `SavedAlbumResponse.__pre_deserialize__` (models.py lines 168-172):
drop the `null` entries of `items` and rebuild the single-key object. -/
def SavedAlbumResponse_pre (d : Json) : Option Json :=
  match d.get? "items" with
  | some (.arr xs) => some (Json.obj [("items", .arr (xs.filter fun x => !x.isNull))])
  | _ => none

/-- `PlaylistResponse.__pre_deserialize__` (models.py lines 422-426):
drop the `null` entries of `items`, keeping the other keys (`{**d, ...}`). -/
def PlaylistResponse_pre (d : Json) : Option Json :=
  match d.get? "items" with
  | some (.arr xs) => some (d.setKey "items" (.arr (xs.filter fun x => !x.isNull)))
  | _ => none

/-- `AudiobooksResponse.__pre_deserialize__` (models.py lines 684-688):
drop the `null` entries of `audiobooks` and rebuild the single-key
object. -/
def AudiobooksResponse_pre (d : Json) : Option Json :=
  match d.get? "audiobooks" with
  | some (.arr xs) => some (Json.obj [("audiobooks", .arr (xs.filter fun x => !x.isNull))])
  | _ => none

/-- `CurrentPlaying.__pre_deserialize__` (models.py lines 325-330): when
the payload has an `item` that is neither absent nor `null` and whose
`is_local` value is truthy (`item.get("is_local")`, `None` when absent),
the item is replaced by `null`; every other payload is returned
unchanged.  A non-object, non-null item would raise in Python. -/
def CurrentPlaying_pre (d : Json) : Option Json :=
  match d.get? "item" with
  | none => some d
  | some .null => some d
  | some (.obj fs) =>
      if pyTruthy ((Json.obj fs).getD "is_local" .null) then
        some (d.setKey "item" .null)
      else some d
  | some _ => none

/-- `SimplifiedAlbum.__pre_deserialize__` (models.py lines 132-138):
lower-cases the `album_type` token before enum matching; raises when the
key is absent or not a string. -/
def SimplifiedAlbum_pre (d : Json) : Option Json :=
  match d.get? "album_type" with
  | some (.str s) => some (d.setKey "album_type" (.str s.toLower))
  | _ => none

/-! ### Batch endpoint guards (spotify.py)

Each ids-list batch endpoint shares one control shape: an empty list
returns the neutral result with no network call, an oversized list raises
`ValueError` locally, otherwise the extracted identifiers are joined with
commas and the network call proceeds.  `BatchOutcome` records which of the
three paths was taken. -/

inductive BatchOutcome where
  | emptyReturn
  | call (idsParam : List Char)
  | validationError (msg : String)
  deriving DecidableEq

/-- Python `",".join(...)`. -/
def commaJoin (xs : List (List Char)) : List Char :=
  List.intercalate [','] xs

def batchDispatch (maxN : Nat) (msg : String) (ids : List (List Char)) :
    BatchOutcome :=
  if ids.isEmpty then .emptyReturn
  else if maxN < ids.length then .validationError msg
  else .call (commaJoin (ids.map get_identifier))

def get_albums : List (List Char) → BatchOutcome :=
  batchDispatch 20 "Maximum of 20 albums can be requested at once"

def save_albums : List (List Char) → BatchOutcome :=
  batchDispatch 50 "Maximum of 50 albums can be saved at once"

def remove_saved_albums : List (List Char) → BatchOutcome :=
  batchDispatch 50 "Maximum of 50 albums can be removed at once"

def are_albums_saved : List (List Char) → BatchOutcome :=
  batchDispatch 20 "Maximum of 20 albums can be checked at once"

def get_artists : List (List Char) → BatchOutcome :=
  batchDispatch 50 "Maximum of 50 artists can be requested at once"

/-- `SpotifyClient.get_audiobooks` (spotify.py lines 300-305): unlike the
other batch endpoints it has no empty-list short-circuit and no maximum;
the network call is made unconditionally. -/
def get_audiobooks (audiobook_ids : List (List Char)) : BatchOutcome :=
  .call (commaJoin (audiobook_ids.map get_identifier))

def save_audiobooks : List (List Char) → BatchOutcome :=
  batchDispatch 50 "Maximum of 50 audiobooks can be saved at once"

def remove_saved_audiobooks : List (List Char) → BatchOutcome :=
  batchDispatch 50 "Maximum of 50 audiobooks can be removed at once"

def are_audiobooks_saved : List (List Char) → BatchOutcome :=
  batchDispatch 50 "Maximum of 50 audiobooks can be checked at once"

def get_chapters : List (List Char) → BatchOutcome :=
  batchDispatch 50 "Maximum of 50 chapters can be requested at once"

def get_episodes : List (List Char) → BatchOutcome :=
  batchDispatch 50 "Maximum of 50 episodes can be requested at once"

def save_episodes : List (List Char) → BatchOutcome :=
  batchDispatch 50 "Maximum of 50 episodes can be saved at once"

def remove_saved_episodes : List (List Char) → BatchOutcome :=
  batchDispatch 50 "Maximum of 50 episodes can be removed at once"

def are_episodes_saved : List (List Char) → BatchOutcome :=
  batchDispatch 50 "Maximum of 50 episodes can be checked at once"

def save_shows : List (List Char) → BatchOutcome :=
  batchDispatch 50 "Maximum of 50 shows can be saved at once"

def remove_saved_shows : List (List Char) → BatchOutcome :=
  batchDispatch 50 "Maximum of 50 shows can be removed at once"

def are_shows_saved : List (List Char) → BatchOutcome :=
  batchDispatch 50 "Maximum of 50 shows can be checked at once"

def save_tracks : List (List Char) → BatchOutcome :=
  batchDispatch 50 "Maximum of 50 tracks can be saved at once"

def remove_saved_tracks : List (List Char) → BatchOutcome :=
  batchDispatch 50 "Maximum of 50 tracks can be removed at once"

def are_tracks_saved : List (List Char) → BatchOutcome :=
  batchDispatch 50 "Maximum of 50 tracks can be checked at once"

/-- The follow endpoints also take a follow type; it only feeds the query
parameters, never the guard logic. -/
def follow_account (_follow_type : List Char) : List (List Char) → BatchOutcome :=
  batchDispatch 50 "Maximum of 50 accounts can be followed at once"

def unfollow_account (_follow_type : List Char) : List (List Char) → BatchOutcome :=
  batchDispatch 50 "Maximum of 50 accounts can be unfollowed at once"

def are_accounts_followed_guard (_follow_type : List Char) :
    List (List Char) → BatchOutcome :=
  batchDispatch 50 "Maximum of 50 accounts can be checked at once"

/-- The guard contract the spec claims of every batch endpoint. -/
def BatchGuarded (op : List (List Char) → BatchOutcome) (maxN : Nat)
    (msg : String) : Prop :=
  ∀ ids, (ids = [] → op ids = .emptyReturn) ∧
    (maxN < ids.length → op ids = .validationError msg) ∧
    (ids ≠ [] → ids.length ≤ maxN →
      op ids = .call (commaJoin (ids.map get_identifier)))

/-! ### Check-saved result construction (spotify.py)

`are_albums_saved` / `are_accounts_followed` build
`dict(zip(identifiers, body))`: the extracted identifiers paired
positionally with the decoded boolean list, collected into a dict
(insertion-ordered, later duplicate keys overwriting earlier ones, the
zip truncating at the shorter list). -/

def pyDictInsert (d : List (List Char × Bool)) (k : List Char) (v : Bool) :
    List (List Char × Bool) :=
  match d with
  | [] => [(k, v)]
  | (k0, v0) :: rest =>
      if k0 = k then (k, v) :: rest else (k0, v0) :: pyDictInsert rest k v

/-- Python `dict(pairs)`. -/
def pyDict (pairs : List (List Char × Bool)) : List (List Char × Bool) :=
  pairs.foldl (fun d kv => pyDictInsert d kv.1 kv.2) []

/-- Result of `SpotifyClient.are_albums_saved` (spotify.py lines 243-254)
after a successful call whose body decoded to `body`. -/
def are_albums_saved_result (album_ids : List (List Char)) (body : List Bool) :
    List (List Char × Bool) :=
  pyDict ((album_ids.map get_identifier).zip body)

/-- Result of `SpotifyClient.are_accounts_followed`
(spotify.py lines 904-917); the follow type only feeds the query
parameters. -/
def are_accounts_followed_result (_follow_type : List Char)
    (ids : List (List Char)) (body : List Bool) : List (List Char × Bool) :=
  pyDict ((ids.map get_identifier).zip body)

/-- Generic lookup, reused for the boolean dictionaries. -/
def lookupId : List (List Char × Bool) → List Char → Option Bool
  | [], _ => none
  | (k, v) :: rest, key => if k = key then some v else lookupId rest key

/-! ### Typed structural decoding

Modelled from the spec: the structural field-mapping layer (spec section
4.4, realised in the source by the mashumaro mixin, which is outside this
repository) looks each dataclass field up under its aliased key, fails on
a missing required field or a value of the wrong shape, validates closed
enum token sets, and recurses into lists and nested records.  The
per-type field lists, aliases and pre-deserialize hooks are taken from
models.py. -/

def asStr : Json → Option String
  | .str s => some s
  | _ => none

def asInt : Json → Option Int
  | .num n => some n
  | _ => none

def asBool : Json → Option Bool
  | .bool b => some b
  | _ => none

/-- An `int | None` field: `null` decodes to the explicit absent value. -/
def asOptInt : Json → Option (Option Int)
  | .null => some none
  | .num n => some (some n)
  | _ => none

/-- A `dict[str, str]` field. -/
def asStrMap (j : Json) : Option (List (String × String)) :=
  match j with
  | .obj fs => fs.mapM fun p => (asStr p.2).map fun s => (p.1, s)
  | _ => none

def decodeListWith {α : Type} (f : Json → Option α) (j : Json) :
    Option (List α) :=
  match j with
  | .arr xs => xs.mapM f
  | _ => none

/-- `AlbumType` (models.py lines 83-89), a closed lowercase token set. -/
inductive AlbumType where
  | album | ep | single | compilation
  deriving DecidableEq

def decodeAlbumType : Json → Option AlbumType
  | .str "album" => some .album
  | .str "ep" => some .ep
  | .str "single" => some .single
  | .str "compilation" => some .compilation
  | _ => none

/-- `ReleaseDatePrecision` (models.py lines 101-106). -/
inductive ReleaseDatePrecision where
  | year | month | day
  deriving DecidableEq

def decodeRDP : Json → Option ReleaseDatePrecision
  | .str "year" => some .year
  | .str "month" => some .month
  | .str "day" => some .day
  | _ => none

/-- `Image` (models.py lines 92-98). -/
structure Image where
  height : Option Int
  width : Option Int
  url : String
  deriving DecidableEq

def decodeImage (j : Json) : Option Image := do
  let height ← (j.get? "height").bind asOptInt
  let width ← (j.get? "width").bind asOptInt
  let url ← (j.get? "url").bind asStr
  pure ⟨height, width, url⟩

/-- `SimplifiedArtist` (models.py lines 109-115); `artist_id` is aliased
to the upstream key `id`. -/
structure SimplifiedArtist where
  artist_id : String
  name : String
  uri : String
  deriving DecidableEq

def decodeSimplifiedArtist (j : Json) : Option SimplifiedArtist := do
  let artist_id ← (j.get? "id").bind asStr
  let name ← (j.get? "name").bind asStr
  let uri ← (j.get? "uri").bind asStr
  pure ⟨artist_id, name, uri⟩

/-- `SimplifiedTrack` (models.py lines 270-284). -/
structure SimplifiedTrack where
  track_id : String
  artists : List SimplifiedArtist
  disc_number : Int
  duration_ms : Int
  explicit : Bool
  external_urls : List (String × String)
  href : String
  name : String
  is_local : Bool
  track_number : Int
  uri : String
  deriving DecidableEq

def decodeSimplifiedTrack (j : Json) : Option SimplifiedTrack := do
  let track_id ← (j.get? "id").bind asStr
  let artists ← (j.get? "artists").bind (decodeListWith decodeSimplifiedArtist)
  let disc_number ← (j.get? "disc_number").bind asInt
  let duration_ms ← (j.get? "duration_ms").bind asInt
  let explicit ← (j.get? "explicit").bind asBool
  let external_urls ← (j.get? "external_urls").bind asStrMap
  let href ← (j.get? "href").bind asStr
  let name ← (j.get? "name").bind asStr
  let is_local ← (j.get? "is_local").bind asBool
  let track_number ← (j.get? "track_number").bind asInt
  let uri ← (j.get? "uri").bind asStr
  pure ⟨track_id, artists, disc_number, duration_ms, explicit, external_urls,
    href, name, is_local, track_number, uri⟩

/-- `SimplifiedAlbum` (models.py lines 118-138); `album_id` aliases `id`. -/
structure SimplifiedAlbum where
  album_type : AlbumType
  total_tracks : Int
  album_id : String
  images : List Image
  name : String
  release_date : String
  release_date_precision : ReleaseDatePrecision
  uri : String
  artists : List SimplifiedArtist
  deriving DecidableEq

/-- Field mapping shared by `SimplifiedAlbum` and `Album`; the two differ
only in which pre-deserialize hook ran first. -/
def simplifiedAlbumFields (d : Json) : Option SimplifiedAlbum := do
  let album_type ← (d.get? "album_type").bind decodeAlbumType
  let total_tracks ← (d.get? "total_tracks").bind asInt
  let album_id ← (d.get? "id").bind asStr
  let images ← (d.get? "images").bind (decodeListWith decodeImage)
  let name ← (d.get? "name").bind asStr
  let release_date ← (d.get? "release_date").bind asStr
  let release_date_precision ← (d.get? "release_date_precision").bind decodeRDP
  let uri ← (d.get? "uri").bind asStr
  let artists ← (d.get? "artists").bind (decodeListWith decodeSimplifiedArtist)
  pure ⟨album_type, total_tracks, album_id, images, name, release_date,
    release_date_precision, uri, artists⟩

def decodeSimplifiedAlbum (j : Json) : Option SimplifiedAlbum := do
  let d ← SimplifiedAlbum_pre j
  simplifiedAlbumFields d

/-- `SimplifiedShow` (models.py lines 494-506); `show_id` aliases `id`. -/
structure SimplifiedShow where
  show_id : String
  name : String
  uri : String
  images : List Image
  external_urls : List (String × String)
  href : String
  publisher : String
  description : String
  total_episodes : Option Int
  deriving DecidableEq

def decodeSimplifiedShow (j : Json) : Option SimplifiedShow := do
  let show_id ← (j.get? "id").bind asStr
  let name ← (j.get? "name").bind asStr
  let uri ← (j.get? "uri").bind asStr
  let images ← (j.get? "images").bind (decodeListWith decodeImage)
  let external_urls ← (j.get? "external_urls").bind asStrMap
  let href ← (j.get? "href").bind asStr
  let publisher ← (j.get? "publisher").bind asStr
  let description ← (j.get? "description").bind asStr
  let total_episodes ← (j.get? "total_episodes").bind asOptInt
  pure ⟨show_id, name, uri, images, external_urls, href, publisher,
    description, total_episodes⟩

/-- `SimplifiedEpisode` (models.py lines 510-524); `episode_id` aliases
`id`. -/
structure SimplifiedEpisode where
  episode_id : String
  name : String
  uri : String
  images : List Image
  external_urls : List (String × String)
  href : String
  duration_ms : Int
  explicit : Bool
  release_date : String
  release_date_precision : ReleaseDatePrecision
  description : String
  deriving DecidableEq

def decodeSimplifiedEpisode (j : Json) : Option SimplifiedEpisode := do
  let episode_id ← (j.get? "id").bind asStr
  let name ← (j.get? "name").bind asStr
  let uri ← (j.get? "uri").bind asStr
  let images ← (j.get? "images").bind (decodeListWith decodeImage)
  let external_urls ← (j.get? "external_urls").bind asStrMap
  let href ← (j.get? "href").bind asStr
  let duration_ms ← (j.get? "duration_ms").bind asInt
  let explicit ← (j.get? "explicit").bind asBool
  let release_date ← (j.get? "release_date").bind asStr
  let release_date_precision ← (j.get? "release_date_precision").bind decodeRDP
  let description ← (j.get? "description").bind asStr
  pure ⟨episode_id, name, uri, images, external_urls, href, duration_ms,
    explicit, release_date, release_date_precision, description⟩

/-- `Track` (models.py lines 307-312): a `SimplifiedTrack` plus its
album. -/
structure Track extends SimplifiedTrack where
  album : SimplifiedAlbum
  deriving DecidableEq

def decodeTrack (j : Json) : Option Track := do
  let base ← decodeSimplifiedTrack j
  let album ← (j.get? "album").bind decodeSimplifiedAlbum
  pure ⟨base, album⟩

/-- `Episode` (models.py lines 533-538): a `SimplifiedEpisode` plus its
show (field renamed `show_` because `show` is reserved in Lean). -/
structure Episode extends SimplifiedEpisode where
  show_ : SimplifiedShow
  deriving DecidableEq

def decodeEpisode (j : Json) : Option Episode := do
  let base ← decodeSimplifiedEpisode j
  let show_ ← (j.get? "show").bind decodeSimplifiedShow
  pure ⟨base, show_⟩

/-- The polymorphic playable item (models.py lines 287-312, 533-538),
discriminated on the `type` field; an unrecognised discriminator fails. -/
inductive Item where
  | track (t : Track)
  | episode (e : Episode)
  deriving DecidableEq

def decodeItem (j : Json) : Option Item :=
  match j.get? "type" with
  | some (.str "track") => (decodeTrack j).map .track
  | some (.str "episode") => (decodeEpisode j).map .episode
  | _ => none

/-- The `item` field of `CurrentPlaying` (`Item | None`, required key):
`null` decodes to the explicit no-item value; a missing key fails. -/
def decodeItemField (d : Json) : Option (Option Item) :=
  match d.get? "item" with
  | some .null => some none
  | some j => (decodeItem j).map some
  | none => none

/-! ### Concrete payloads used as evaluation inputs -/

/-- A playlist entry that is a local file. -/
def itemLocal : Json := .obj [("is_local", .bool true), ("name", .str "L")]

/-- A playlist entry with catalog identity. -/
def itemKeep : Json := .obj [("is_local", .bool false), ("name", .str "K")]

/-- A currently-playing payload whose item is a local file. -/
def currentPlayingLocal : Json := .obj
  [("context", .null), ("progress_ms", .num 5), ("is_playing", .bool true),
   ("item", .obj [("is_local", .bool true), ("name", .str "L")]),
   ("currently_playing_type", .str "track")]

/-! ## Helper lemmas -/

/-! ### Lemmas about `pySplit` -/

theorem pySplit_ne_nil (sep : Char) (l : List Char) : pySplit sep l ≠ [] := by
  cases l with
  | nil => simp [pySplit]
  | cons c cs =>
    simp only [pySplit]
    rcases pySplit sep cs with _ | ⟨s, ss⟩
    · simp
    · by_cases hc : c = sep <;> simp [hc]

theorem pySplit_cons_sep {sep c : Char} (h : c = sep) (cs : List Char) :
    pySplit sep (c :: cs) = [] :: pySplit sep cs := by
  rcases hr : pySplit sep cs with _ | ⟨s, ss⟩
  · exact absurd hr (pySplit_ne_nil sep cs)
  · simp [pySplit, hr, h]

theorem pySplit_cons_ne {sep c : Char} (h : ¬c = sep) {cs s : List Char}
    {ss : List (List Char)} (hr : pySplit sep cs = s :: ss) :
    pySplit sep (c :: cs) = (c :: s) :: ss := by
  simp [pySplit, hr, h]

theorem pySplit_no_sep {sep : Char} {l : List Char} (h : sep ∉ l) :
    pySplit sep l = [l] := by
  induction l with
  | nil => rfl
  | cons c cs ih =>
    have hc : ¬c = sep := fun e => h (e ▸ List.mem_cons_self c cs)
    have hcs : sep ∉ cs := fun m => h (List.mem_cons_of_mem _ m)
    exact pySplit_cons_ne hc (ih hcs)

theorem two_le_pySplit {sep : Char} {l : List Char} (h : sep ∈ l) :
    2 ≤ (pySplit sep l).length := by
  induction l with
  | nil => cases h
  | cons c cs ih =>
    by_cases hc : c = sep
    · rw [pySplit_cons_sep hc]
      have h1 : 0 < (pySplit sep cs).length :=
        List.length_pos.mpr (pySplit_ne_nil sep cs)
      simp only [List.length_cons]
      omega
    · have hmem : sep ∈ cs := by
        rcases List.mem_cons.mp h with h1 | h1
        · exact absurd h1.symm hc
        · exact h1
      rcases hr : pySplit sep cs with _ | ⟨s, ss⟩
      · exact absurd hr (pySplit_ne_nil sep cs)
      · rw [pySplit_cons_ne hc hr]
        have h2 := ih hmem
        rw [hr] at h2
        simpa using h2

theorem getLastD_irrel {α : Type} {l : List α} (h : l ≠ []) (d d' : α) :
    l.getLastD d = l.getLastD d' := by
  rw [List.getLastD_eq_getLast?, List.getLastD_eq_getLast?,
    List.getLast?_eq_getLast l h]
  rfl

theorem getLastD_mem {α : Type} {l : List α} (h : l ≠ []) (d : α) :
    l.getLastD d ∈ l := by
  rw [List.getLastD_eq_getLast?, List.getLast?_eq_getLast l h]
  exact List.getLast_mem h

theorem getLastD_pySplit_append (sep : Char) (a b : List Char) :
    (pySplit sep (a ++ sep :: b)).getLastD [] = (pySplit sep b).getLastD [] := by
  induction a with
  | nil =>
    rw [List.nil_append, pySplit_cons_sep rfl, List.getLastD_cons]
  | cons c a' ih =>
    rw [List.cons_append]
    rcases hr : pySplit sep (a' ++ sep :: b) with _ | ⟨s, ss⟩
    · exact absurd hr (pySplit_ne_nil sep _)
    · have hlen : 2 ≤ (s :: ss).length := by
        rw [← hr]; exact two_le_pySplit (by simp)
      have hss : ss ≠ [] := by
        cases ss with
        | nil => simp at hlen
        | cons _ _ => simp
      rw [hr] at ih
      by_cases hc : c = sep
      · rw [pySplit_cons_sep hc, hr, List.getLastD_cons]
        exact ih
      · rw [pySplit_cons_ne hc hr, List.getLastD_cons]
        calc ss.getLastD (c :: s) = ss.getLastD s := getLastD_irrel hss _ _
          _ = (pySplit sep b).getLastD [] := by rw [← ih, List.getLastD_cons]

theorem pySplit_chunk_no_sep {sep : Char} {l : List Char} :
    ∀ x ∈ pySplit sep l, sep ∉ x := by
  induction l with
  | nil => intro x hx; simp only [pySplit, List.mem_singleton] at hx; simp [hx]
  | cons c cs ih =>
    intro x hx
    by_cases hc : c = sep
    · rw [pySplit_cons_sep hc] at hx
      rcases List.mem_cons.mp hx with h1 | h1
      · simp [h1]
      · exact ih x h1
    · rcases hr : pySplit sep cs with _ | ⟨s, ss⟩
      · exact absurd hr (pySplit_ne_nil sep cs)
      · rw [pySplit_cons_ne hc hr] at hx
        rcases List.mem_cons.mp hx with h1 | h1
        · subst h1
          intro hmem
          rcases List.mem_cons.mp hmem with h2 | h2
          · exact hc h2.symm
          · exact ih s (hr ▸ List.mem_cons_self s ss) h2
        · exact ih x (hr ▸ List.mem_cons_of_mem s h1)

theorem get_identifier_no_colon (s : List Char) : ':' ∉ get_identifier s :=
  pySplit_chunk_no_sep _ (getLastD_mem (pySplit_ne_nil ':' s) [])

theorem get_identifier_of_no_colon {s : List Char} (h : ':' ∉ s) :
    get_identifier s = s := by
  simp [get_identifier, pySplit_no_sep h]

theorem get_identifier_append {p idc : List Char} (h : ':' ∉ idc) :
    get_identifier (p ++ ':' :: idc) = idc := by
  unfold get_identifier
  rw [getLastD_pySplit_append, pySplit_no_sep h]
  rfl

/-! ### Lemmas about objects -/

theorem assocLookup_setPairs_self (fs : List (String × Json)) (k : String) (v : Json) :
    assocLookup (setPairs fs k v) k = some v := by
  induction fs with
  | nil => simp [setPairs, assocLookup]
  | cons p rest ih =>
    by_cases h : p.1 = k
    · simp [setPairs, h, assocLookup]
    · simp [setPairs, h, assocLookup, ih]

theorem get?_obj {j : Json} {k : String} {v : Json} (h : j.get? k = some v) :
    ∃ fs, j = .obj fs := by
  cases j <;> simp [Json.get?] at h ⊢

theorem get?_setKey_self {fs : List (String × Json)} (k : String) (v : Json) :
    (Json.setKey (.obj fs) k v).get? k = some v := by
  simp [Json.setKey, Json.get?, assocLookup_setPairs_self]

theorem filterNotLocal_eq_filter {xs : List Json}
    (h : ∀ x ∈ xs, (x.get? "is_local").isSome = true) :
    filterNotLocal xs =
      some (xs.filter fun x => !pyTruthy (x.getD "is_local" .null)) := by
  induction xs with
  | nil => rfl
  | cons x rest ih =>
    have hx := h x (List.mem_cons_self x rest)
    rcases hv : x.get? "is_local" with _ | v
    · rw [hv] at hx; simp at hx
    · have hrest := ih fun y hy => h y (List.mem_cons_of_mem x hy)
      simp only [filterNotLocal, hv, hrest]
      by_cases ht : pyTruthy v
      · simp [List.filter_cons, Json.getD, hv, ht]
      · simp [List.filter_cons, Json.getD, hv, ht]

theorem batchDispatch_guarded (maxN : Nat) (msg : String) :
    BatchGuarded (batchDispatch maxN msg) maxN msg := by
  intro ids
  refine ⟨fun h => by simp [batchDispatch, h], fun h => ?_, fun h1 h2 => ?_⟩
  · have hne : ¬ids.isEmpty = true := by
      cases ids with
      | nil => simp at h
      | cons _ _ => simp
    simp [batchDispatch, hne, h]
  · have hne : ¬ids.isEmpty = true := by
      cases ids with
      | nil => exact absurd rfl h1
      | cons _ _ => simp
    have hle : ¬maxN < ids.length := not_lt.mpr h2
    simp [batchDispatch, hne, hle]

theorem pyDictInsert_fresh {d : List (List Char × Bool)} {k : List Char}
    (v : Bool) (h : k ∉ d.map Prod.fst) : pyDictInsert d k v = d ++ [(k, v)] := by
  induction d with
  | nil => rfl
  | cons p rest ih =>
    have h1 : ¬p.1 = k := fun e => h (by simp [e])
    have h2 : k ∉ rest.map Prod.fst := fun m => h (by simp [m])
    simp [pyDictInsert, h1, ih h2]

theorem pyDict_aux_nodup (pairs : List (List Char × Bool)) :
    ∀ acc, (pairs.map Prod.fst).Nodup →
      (∀ k ∈ pairs.map Prod.fst, k ∉ acc.map Prod.fst) →
      pairs.foldl (fun d kv => pyDictInsert d kv.1 kv.2) acc = acc ++ pairs := by
  induction pairs with
  | nil => intro acc _ _; simp
  | cons p rest ih =>
    intro acc hnd hdisj
    have hp : p.1 ∉ acc.map Prod.fst := hdisj p.1 (by simp)
    have hnd' : (rest.map Prod.fst).Nodup := by
      simp only [List.map_cons, List.nodup_cons] at hnd
      exact hnd.2
    have hne : p.1 ∉ rest.map Prod.fst := by
      simp only [List.map_cons, List.nodup_cons] at hnd
      exact hnd.1
    have hdisj' : ∀ k ∈ rest.map Prod.fst, k ∉ (acc ++ [p]).map Prod.fst := by
      intro k hk
      simp only [List.map_append, List.mem_append]
      rintro (h1 | h1)
      · exact hdisj k (by simp [hk]) h1
      · simp only [List.map_cons, List.map_nil, List.mem_singleton] at h1
        exact hne (h1 ▸ hk)
    calc (p :: rest).foldl (fun d kv => pyDictInsert d kv.1 kv.2) acc
        = rest.foldl (fun d kv => pyDictInsert d kv.1 kv.2) (acc ++ [p]) := by
          simp [List.foldl_cons, pyDictInsert_fresh p.2 hp]
      _ = (acc ++ [p]) ++ rest := ih (acc ++ [p]) hnd' hdisj'
      _ = acc ++ p :: rest := by simp

/-- With pairwise-distinct keys, `dict(pairs)` is the pair list itself. -/
theorem pyDict_nodup {pairs : List (List Char × Bool)}
    (h : (pairs.map Prod.fst).Nodup) : pyDict pairs = pairs := by
  have := pyDict_aux_nodup pairs [] h (by simp)
  simpa [pyDict] using this


theorem lookupId_zip_pos {keys : List (List Char)} {vals : List Bool}
    (hnd : keys.Nodup) :
    ∀ i (h1 : i < keys.length) (h2 : i < vals.length),
      lookupId (keys.zip vals) keys[i] = some vals[i] := by
  induction keys generalizing vals with
  | nil => intro i h1; simp at h1
  | cons k ks ih =>
    intro i h1 h2
    cases vals with
    | nil => simp at h2
    | cons v vs =>
      cases i with
      | zero => simp [lookupId]
      | succ j =>
        have hk : k ∉ ks := (List.nodup_cons.mp hnd).1
        have hj1 : j < ks.length := by simpa using h1
        have hmem : ks[j] ∈ ks := List.getElem_mem hj1
        have hne : ¬k = ks[j] := fun e => hk (e ▸ hmem)
        simp only [List.zip_cons_cons, List.getElem_cons_succ, lookupId, hne,
          if_false]
        exact ih (List.nodup_cons.mp hnd).2 j hj1 (by simpa using h2)

theorem lookupId_eq_none {d : List (List Char × Bool)} {k : List Char}
    (h : k ∉ d.map Prod.fst) : lookupId d k = none := by
  induction d with
  | nil => rfl
  | cons p rest ih =>
    have h1 : ¬p.1 = k := fun e => h (by simp [e])
    have h2 : k ∉ rest.map Prod.fst := fun m => h (by simp [m])
    simp [lookupId, h1, ih h2]

theorem getElem_not_mem_zip {keys : List (List Char)} {vals : List Bool}
    (hnd : keys.Nodup) :
    ∀ i (h1 : i < keys.length), vals.length ≤ i →
      keys[i] ∉ (keys.zip vals).map Prod.fst := by
  induction keys generalizing vals with
  | nil => intro i h1; simp at h1
  | cons k ks ih =>
    intro i h1 hge
    cases vals with
    | nil => simp
    | cons v vs =>
      cases i with
      | zero => simp at hge
      | succ j =>
        have hk : k ∉ ks := (List.nodup_cons.mp hnd).1
        have hj1 : j < ks.length := by simpa using h1
        have hmem : ks[j] ∈ ks := List.getElem_mem hj1
        simp only [List.zip_cons_cons, List.getElem_cons_succ, List.map_cons,
          List.mem_cons]
        rintro (h2 | h2)
        · exact hk (h2 ▸ hmem)
        · exact ih (List.nodup_cons.mp hnd).2 j hj1 (by simpa using hge) h2

/-- Claim C1 (code_bug evidence): the claim says a 200 response whose
content type does not contain `application/json` raises the
malformed/generic error; the code performs no content-type inspection, so
at the repository's own test input (`test_unexpected_server_response`:
status 200, content type `plain/text`, body `Yes`) the body is returned
as a successful result. -/
theorem claim_C1_code_eval :
    requestBody "v1/me/player" (.response 200 "plain/text" "Yes") = .ok "Yes" := rfl

/-- Claim C2: every 200 response whose body contains the embedded
upstream 404 marker raises `SpotifyNotFoundError` carrying the requested
path. -/
theorem claim_C2_embedded_404 (uri content_type body : String)
    (h : strContains body notFoundMarker = true) :
    requestBody uri (.response 200 content_type body) =
      .error (.spotifyNotFoundError ("Resource not found: " ++ uri)) := by
  simp [requestBody, h]

theorem claim_C2_witness :
    strContains "the \"status\": 404 body" notFoundMarker = true ∧
    requestBody "v1/albums/abc" (.response 200 "application/json" "the \"status\": 404 body") =
      .error (.spotifyNotFoundError ("Resource not found: " ++ "v1/albums/abc")) :=
  ⟨rfl, claim_C2_embedded_404 "v1/albums/abc" "application/json"
    "the \"status\": 404 body" rfl⟩

/-- Claim C4 counterexample: the claim says every transport-level failure
is signalled as the connection-error kind, but a non-timeout client error
propagates unwrapped, not as `SpotifyConnectionError`. -/
theorem claim_C4_counterexample :
    requestBody "v1/me/player" .clientError = .error .clientError ∧
    isConnectionError .clientError = false :=
  ⟨rfl, rfl⟩

/-- Claim C4 (amended): only timeout expiry is wrapped into the
connection-error kind; any other transport-level failure propagates as
the underlying client exception. -/
theorem claim_C4_amended (uri : String) :
    requestBody uri .timeout =
      .error (.spotifyConnectionError "Timeout occurred while connecting to Spotify") ∧
    isConnectionError
      (.spotifyConnectionError "Timeout occurred while connecting to Spotify") = true ∧
    requestBody uri .clientError = .error .clientError :=
  ⟨rfl, rfl, rfl⟩

/-- Claim C5: identifier extraction yields the same result on a compound
URI ending in a bare id as on the bare id itself, is idempotent on every
string, and `get_artist_top_tracks` builds the identical outbound path
from either form. -/
theorem claim_C5 :
    (∀ p idc : List Char, ':' ∉ idc →
      get_identifier (p ++ ':' :: idc) = get_identifier idc ∧
      get_identifier idc = idc) ∧
    (∀ x : List Char, get_identifier (get_identifier x) = get_identifier x) ∧
    (∀ p idc : List Char, ':' ∉ idc →
      get_artist_top_tracks_path (p ++ ':' :: idc) =
        get_artist_top_tracks_path idc) := by
  refine ⟨fun p idc h => ⟨?_, get_identifier_of_no_colon h⟩, fun x => ?_,
    fun p idc h => ?_⟩
  · rw [get_identifier_append h, get_identifier_of_no_colon h]
  · exact get_identifier_of_no_colon (get_identifier_no_colon x)
  · unfold get_artist_top_tracks_path
    rw [getLastD_pySplit_append, pySplit_no_sep h]

theorem claim_C5_witness :
    get_identifier ("spotify:artist".toList ++ ':' :: "abc".toList) =
      "abc".toList ∧
    get_artist_top_tracks_path ("spotify:artist".toList ++ ':' :: "abc".toList) =
      get_artist_top_tracks_path "abc".toList := by
  have h : ':' ∉ "abc".toList := by decide
  have h2 := claim_C5.1 "spotify:artist".toList "abc".toList h
  refine ⟨?_, claim_C5.2.2 "spotify:artist".toList "abc".toList h⟩
  rw [h2.1]
  exact h2.2

/-- Claim C9: `refresh_token` replaces the token with the callback result
when one is registered and is a no-op otherwise (also keeping `none`),
and the request headers carry `Bearer` plus the post-refresh token. -/
theorem claim_C9 (version : String) (c : ClientState) :
    (∀ t, c.refresh_token_function = some t →
      (refresh_token c).token = some t) ∧
    (c.refresh_token_function = none → refresh_token c = c) ∧
    (requestHeaders version c).2 = refresh_token c ∧
    assocLookup (requestHeaders version c).1 "Authorization" =
      some ("Bearer " ++ pyFStrOpt (refresh_token c).token) := by
  refine ⟨fun t ht => ?_, fun hn => ?_, rfl, ?_⟩
  · simp [refresh_token, ht]
  · simp [refresh_token, hn]
  · simp [requestHeaders, assocLookup]

theorem claim_C9_witness :
    (refresh_token ⟨some "old", some "new"⟩).token = some "new" ∧
    refresh_token ⟨none, none⟩ = ⟨none, none⟩ :=
  ⟨(claim_C9 "1.0" ⟨some "old", some "new"⟩).1 "new" rfl,
    (claim_C9 "1.0" ⟨none, none⟩).2.1 rfl⟩

/-- Claim C3 counterexample: the claim quantifies over every batch
operation, but `get_audiobooks` called with the empty id list performs
the network call (with an empty ids parameter) instead of returning the
neutral result with zero network calls. -/
theorem claim_C3_counterexample :
    get_audiobooks [] = .call [] ∧ get_audiobooks [] ≠ .emptyReturn :=
  ⟨rfl, by decide⟩

/-- Claim C3 (amended): every ids-list batch operation except
`get_audiobooks` returns the neutral result on an empty list without a
network call, raises the local `ValueError` beyond its maximum before any
network call, and proceeds to the call at or below the maximum;
`get_audiobooks` performs the network call unconditionally. -/
theorem claim_C3_amended :
    BatchGuarded get_albums 20 "Maximum of 20 albums can be requested at once" ∧
    BatchGuarded save_albums 50 "Maximum of 50 albums can be saved at once" ∧
    BatchGuarded remove_saved_albums 50 "Maximum of 50 albums can be removed at once" ∧
    BatchGuarded are_albums_saved 20 "Maximum of 20 albums can be checked at once" ∧
    BatchGuarded get_artists 50 "Maximum of 50 artists can be requested at once" ∧
    BatchGuarded save_audiobooks 50 "Maximum of 50 audiobooks can be saved at once" ∧
    BatchGuarded remove_saved_audiobooks 50 "Maximum of 50 audiobooks can be removed at once" ∧
    BatchGuarded are_audiobooks_saved 50 "Maximum of 50 audiobooks can be checked at once" ∧
    BatchGuarded get_chapters 50 "Maximum of 50 chapters can be requested at once" ∧
    BatchGuarded get_episodes 50 "Maximum of 50 episodes can be requested at once" ∧
    BatchGuarded save_episodes 50 "Maximum of 50 episodes can be saved at once" ∧
    BatchGuarded remove_saved_episodes 50 "Maximum of 50 episodes can be removed at once" ∧
    BatchGuarded are_episodes_saved 50 "Maximum of 50 episodes can be checked at once" ∧
    BatchGuarded save_shows 50 "Maximum of 50 shows can be saved at once" ∧
    BatchGuarded remove_saved_shows 50 "Maximum of 50 shows can be removed at once" ∧
    BatchGuarded are_shows_saved 50 "Maximum of 50 shows can be checked at once" ∧
    BatchGuarded save_tracks 50 "Maximum of 50 tracks can be saved at once" ∧
    BatchGuarded remove_saved_tracks 50 "Maximum of 50 tracks can be removed at once" ∧
    BatchGuarded are_tracks_saved 50 "Maximum of 50 tracks can be checked at once" ∧
    (∀ ft, BatchGuarded (follow_account ft) 50
      "Maximum of 50 accounts can be followed at once") ∧
    (∀ ft, BatchGuarded (unfollow_account ft) 50
      "Maximum of 50 accounts can be unfollowed at once") ∧
    (∀ ft, BatchGuarded (are_accounts_followed_guard ft) 50
      "Maximum of 50 accounts can be checked at once") ∧
    (∀ ids, get_audiobooks ids = .call (commaJoin (ids.map get_identifier))) :=
  ⟨batchDispatch_guarded 20 _, batchDispatch_guarded 50 _,
    batchDispatch_guarded 50 _, batchDispatch_guarded 20 _,
    batchDispatch_guarded 50 _, batchDispatch_guarded 50 _,
    batchDispatch_guarded 50 _, batchDispatch_guarded 50 _,
    batchDispatch_guarded 50 _, batchDispatch_guarded 50 _,
    batchDispatch_guarded 50 _, batchDispatch_guarded 50 _,
    batchDispatch_guarded 50 _, batchDispatch_guarded 50 _,
    batchDispatch_guarded 50 _, batchDispatch_guarded 50 _,
    batchDispatch_guarded 50 _, batchDispatch_guarded 50 _,
    batchDispatch_guarded 50 _, fun _ => batchDispatch_guarded 50 _,
    fun _ => batchDispatch_guarded 50 _, fun _ => batchDispatch_guarded 50 _,
    fun _ => rfl⟩

theorem claim_C3_witness :
    get_albums [] = .emptyReturn ∧
    get_albums (List.replicate 21 ['a']) =
      .validationError "Maximum of 20 albums can be requested at once" ∧
    get_albums [['a']] = .call ['a'] := by
  obtain ⟨h1, -⟩ := claim_C3_amended
  refine ⟨(h1 []).1 rfl, (h1 (List.replicate 21 ['a'])).2.1 (by simp), ?_⟩
  exact (h1 [['a']]).2.2 (by simp) (by simp)

theorem map_fst_zip_sublist (l1 : List (List Char)) (l2 : List Bool) :
    ((l1.zip l2).map Prod.fst).Sublist l1 := by
  induction l1 generalizing l2 with
  | nil => simp
  | cons k ks ih =>
    cases l2 with
    | nil => simp
    | cons v vs =>
      simp only [List.zip_cons_cons, List.map_cons]
      exact (ih vs).cons₂ k

/-- Claim C10: for a non-empty, within-limit id list with distinct
extracted identifiers, the check-saved dictionary is keyed by the
extracted bare identifiers, pairs each with the positionally
corresponding upstream boolean, silently omits the identifiers beyond a
shorter upstream list, and `are_accounts_followed` builds its result the
same way. -/
theorem claim_C10 (ids : List (List Char)) (body : List Bool)
    (_hne : ids ≠ []) (_hlim : ids.length ≤ 20)
    (hnd : (ids.map get_identifier).Nodup) :
    (∀ i (h1 : i < (ids.map get_identifier).length) (h2 : i < body.length),
      lookupId (are_albums_saved_result ids body)
        (ids.map get_identifier)[i] = some body[i]) ∧
    (∀ i (h1 : i < (ids.map get_identifier).length), body.length ≤ i →
      lookupId (are_albums_saved_result ids body)
        (ids.map get_identifier)[i] = none) ∧
    (∀ p ∈ are_albums_saved_result ids body, p.1 ∈ ids.map get_identifier) ∧
    (∀ ft, are_accounts_followed_result ft ids body =
      are_albums_saved_result ids body) := by
  have hzip : ((((ids.map get_identifier).zip body)).map Prod.fst).Nodup :=
    hnd.sublist (map_fst_zip_sublist _ _)
  have hres : are_albums_saved_result ids body =
      (ids.map get_identifier).zip body := by
    unfold are_albums_saved_result
    exact pyDict_nodup hzip
  refine ⟨fun i h1 h2 => ?_, fun i h1 hge => ?_, fun p hp => ?_, fun _ => rfl⟩
  · rw [hres]
    exact lookupId_zip_pos hnd i h1 h2
  · rw [hres]
    exact lookupId_eq_none (getElem_not_mem_zip hnd i h1 hge)
  · rw [hres] at hp
    exact (map_fst_zip_sublist _ _).subset (List.mem_map_of_mem Prod.fst hp)

theorem claim_C10_witness :
    lookupId (are_albums_saved_result
      ["spotify:album:aa".toList, "bb".toList] [true]) "aa".toList = some true ∧
    lookupId (are_albums_saved_result
      ["spotify:album:aa".toList, "bb".toList] [true]) "bb".toList = none := by
  have h := claim_C10 ["spotify:album:aa".toList, "bb".toList] [true]
    (by simp) (by simp) (by decide)
  exact ⟨h.1 0 (by decide) (by decide), h.2.1 1 (by decide) (by decide)⟩

/-- Claim C6: the playlist-item hook drops exactly the entries whose
`is_local` value is truthy and keeps the rest in order (the filtered list
is a sublist), and the saved-albums / playlists / audiobooks hooks drop
exactly the `null` entries, keeping order. -/
theorem claim_C6 :
    (∀ d xs, d.get? "items" = some (.arr xs) →
      (∀ x ∈ xs, (x.get? "is_local").isSome = true) →
      PlaylistTracks_pre d = some (.obj [("items",
        .arr (xs.filter fun x => !pyTruthy (x.getD "is_local" .null)))]) ∧
      (xs.filter fun x => !pyTruthy (x.getD "is_local" .null)).Sublist xs ∧
      (∀ x ∈ xs, x ∈ xs.filter (fun x => !pyTruthy (x.getD "is_local" .null)) ↔
        pyTruthy (x.getD "is_local" .null) = false)) ∧
    (∀ d xs, d.get? "items" = some (.arr xs) →
      SavedAlbumResponse_pre d =
        some (.obj [("items", .arr (xs.filter fun x => !x.isNull))]) ∧
      (xs.filter fun x => !x.isNull).Sublist xs ∧
      (∀ x ∈ xs, x ∈ xs.filter (fun x => !x.isNull) ↔ x.isNull = false)) ∧
    (∀ d xs, d.get? "items" = some (.arr xs) →
      PlaylistResponse_pre d =
        some (d.setKey "items" (.arr (xs.filter fun x => !x.isNull))) ∧
      (xs.filter fun x => !x.isNull).Sublist xs) ∧
    (∀ d xs, d.get? "audiobooks" = some (.arr xs) →
      AudiobooksResponse_pre d =
        some (.obj [("audiobooks", .arr (xs.filter fun x => !x.isNull))]) ∧
      (xs.filter fun x => !x.isNull).Sublist xs) := by
  refine ⟨fun d xs hitems hloc => ?_, fun d xs hitems => ?_,
    fun d xs hitems => ?_, fun d xs hitems => ?_⟩
  · refine ⟨?_, List.filter_sublist xs, fun x hx => ?_⟩
    · simp [PlaylistTracks_pre, hitems, filterNotLocal_eq_filter hloc]
    · simp [List.mem_filter, hx, Bool.not_eq_true']
  · refine ⟨?_, List.filter_sublist xs, fun x hx => ?_⟩
    · simp [SavedAlbumResponse_pre, hitems]
    · simp [List.mem_filter, hx, Bool.not_eq_true']
  · exact ⟨by simp [PlaylistResponse_pre, hitems], List.filter_sublist xs⟩
  · exact ⟨by simp [AudiobooksResponse_pre, hitems], List.filter_sublist xs⟩

theorem claim_C6_witness :
    PlaylistTracks_pre (.obj [("items", .arr [itemKeep, itemLocal])]) =
      some (.obj [("items", .arr [itemKeep])]) ∧
    SavedAlbumResponse_pre (.obj [("items", .arr [.null, .str "x"])]) =
      some (.obj [("items", .arr [.str "x"])]) ∧
    AudiobooksResponse_pre (.obj [("audiobooks", .arr [.null, .str "b"])]) =
      some (.obj [("audiobooks", .arr [.str "b"])]) := by
  refine ⟨?_, ?_, ?_⟩
  · have hloc : ∀ x ∈ [itemKeep, itemLocal], (x.get? "is_local").isSome = true := by
      intro x hx
      fin_cases hx <;> rfl
    exact (claim_C6.1 (.obj [("items", .arr [itemKeep, itemLocal])])
      [itemKeep, itemLocal] rfl hloc).1
  · exact (claim_C6.2.1 (.obj [("items", .arr [.null, .str "x"])])
      [.null, .str "x"] rfl).1
  · exact (claim_C6.2.2.2 (.obj [("audiobooks", .arr [.null, .str "b"])])
      [.null, .str "b"] rfl).1

/-- Claim C7: a currently-playing payload whose item is present,
non-null and local has its item replaced by the explicit no-item value,
which then decodes to the absent item rather than failing; payloads whose
item is absent, null, or not local pass through the hook unchanged. -/
theorem claim_C7 :
    (∀ d fs, d.get? "item" = some (.obj fs) →
      pyTruthy ((Json.obj fs).getD "is_local" .null) = true →
      CurrentPlaying_pre d = some (d.setKey "item" .null) ∧
      (d.setKey "item" .null).get? "item" = some .null ∧
      decodeItemField (d.setKey "item" .null) = some none) ∧
    (∀ d, d.get? "item" = none → CurrentPlaying_pre d = some d) ∧
    (∀ d, d.get? "item" = some .null → CurrentPlaying_pre d = some d) ∧
    (∀ d fs, d.get? "item" = some (.obj fs) →
      pyTruthy ((Json.obj fs).getD "is_local" .null) = false →
      CurrentPlaying_pre d = some d) := by
  refine ⟨fun d fs h ht => ?_, fun d h => ?_, fun d h => ?_,
    fun d fs h ht => ?_⟩
  · obtain ⟨gs, rfl⟩ := get?_obj h
    refine ⟨?_, get?_setKey_self _ _, ?_⟩
    · simp [CurrentPlaying_pre, h, ht]
    · simp [decodeItemField, get?_setKey_self]
  · simp [CurrentPlaying_pre, h]
  · simp [CurrentPlaying_pre, h]
  · simp [CurrentPlaying_pre, h, ht]

theorem claim_C7_witness :
    CurrentPlaying_pre currentPlayingLocal =
      some (currentPlayingLocal.setKey "item" .null) ∧
    decodeItemField (currentPlayingLocal.setKey "item" .null) = some none := by
  have h := claim_C7.1 currentPlayingLocal
    [("is_local", .bool true), ("name", .str "L")] rfl rfl
  exact ⟨h.1, h.2.2⟩

end Spotify
